import Mathlib

/-
Verification of the transformer-loading core of robotframework-tidy.

Shallow embedding of `robotidy/transformers/__init__.py` and the relevant
parts of `robotidy/cli.py`.  Python strings are embedded as `List Char`;
Python dicts (which are insertion ordered) as association lists updated in
place; raised exceptions as `Except.error`.  External collaborators that are
not part of the two source files (robot framework's `Importer`, and
`RecommendationFinder.find_similar` / `remove_rst_formatting` from
`robotidy.utils`) are passed in as explicit oracle functions.
-/

set_option autoImplicit false

namespace Robotidy

/-- A Python string, embedded as its list of characters. -/
abbrev Str := List Char

/-- Whether `pat` is an initial segment of `s` (helper for substring tests). -/
def startsWithList : Str → Str → Bool
  | [], _ => true
  | _ :: _, [] => false
  | a :: as, b :: bs => a == b && startsWithList as bs

/-- Models the Python membership test `pat in s` on strings: `pat` occurs
as a contiguous substring of `s`. -/
def occursIn (pat : Str) : Str → Bool
  | [] => pat.isEmpty
  | c :: rest => startsWithList pat (c :: rest) || occursIn pat rest

/-- Models `arg.split('=', maxsplit=1)` followed by unpacking into two
variables: `some (before, after)` splitting at the first `'='`, and `none`
when the string holds no `'='` (in which case the Python unpacking
`param, value = ...` raises `ValueError`). -/
def splitFirstEq : Str → Option (Str × Str)
  | [] => none
  | c :: rest =>
    if c = '=' then some ([], rest)
    else
      match splitFirstEq rest with
      | some (p, v) => some (c :: p, v)
      | none => none

/-- Association list standing for a Python dict in insertion order.
`dictInsert` models `d[k] = v`: an existing key keeps its position and gets
the new value, a new key is appended at the end. -/
def dictInsert {α : Type} : List (Str × α) → Str → α → List (Str × α)
  | [], k, v => [(k, v)]
  | p :: rest, k, v => if p.1 = k then (k, v) :: rest else p :: dictInsert rest k v

/-- Models `d[k]` / `k in d` on the association list: the value stored at
the first (unique) occurrence of key `k`. -/
def dictLookup {α : Type} : List (Str × α) → Str → Option α
  | [], _ => none
  | p :: rest, k => if p.1 = k then some p.2 else dictLookup rest k

/-- The message of the `ValueError` raised by Python when unpacking a
1-element list into two variables, as happens for a parameter token
without `'='` at `param, value = arg.split('=', maxsplit=1)`. -/
def unpackMsg : Str := "not enough values to unpack (expected 2, got 1)".toList

/-- Python exceptions that can escape the embedded code:
`ValueError` (tuple unpacking), robot's `DataError` (re-raised verbatim
when instance creation failed), and `ImportTransformerError`. -/
inductive PyErr where
  | valueError (msg : Str)
  | dataError (msg : Str)
  | importTransformerError (msg : Str)
deriving DecidableEq

/-- Embeds the loop of `load_transformers` lines 61-64: each token of
`chain(args, config.get(name, ()))` is split on the first `'='` and the
pair is written into the dict `temp_args`, so a later token with the same
parameter name overwrites an earlier one. -/
def mergeTokens : List Str → List (Str × Str) → Except PyErr (List (Str × Str))
  | [], d => .ok d
  | tok :: rest, d =>
    match splitFirstEq tok with
    | some (p, v) => mergeTokens rest (dictInsert d p v)
    | none => .error (.valueError unpackMsg)

/-- Specification helper: the value of the LAST token in the list whose
part before the first `'='` equals `k` (tokens without `'='` are skipped). -/
def lastValue : List Str → Str → Option Str
  | [], _ => none
  | tok :: rest, k =>
    match splitFirstEq tok with
    | some (p, v) =>
      match lastValue rest k with
      | some w => some w
      | none => if p = k then some v else none
    | none => lastValue rest k

/-- First-`some` choice on options (used to state lookup facts). -/
def optOr : Option Str → Option Str → Option Str
  | some w, _ => some w
  | none, o => o

/-- Models `config.get(name, ())`: the token list registered for `name`,
or the empty tuple when absent. -/
def configGet : List (Str × List Str) → Str → List Str
  | [], _ => []
  | p :: rest, k => if p.1 = k then p.2 else configGet rest k

/-- The `TRANSFORMERS` catalog constant of `robotidy/transformers/__init__.py`,
in its declared order. -/
def TRANSFORMERS : List Str :=
  ["NormalizeSeparators",
   "DiscardEmptySections",
   "MergeAndOrderSections",
   "RemoveEmptySettings",
   "NormalizeAssignments",
   "OrderSettings",
   "OrderSettingsSection",
   "AlignSettingsSection",
   "AlignVariablesSection",
   "NormalizeNewLines",
   "NormalizeSectionHeaderName",
   "NormalizeSettingName",
   "ReplaceRunKeywordIf",
   "SplitTooLongLine",
   "SmartSortKeywords"].map String.toList

/-- An instantiated transformer as far as the loader observes it:
`name` is `__class__.__name__`, `enabled` is `getattr(cls, 'ENABLED', True)`
with the default already applied, `doc` is `__doc__`.  The concrete
transformer classes live in files outside the two sources, so instances are
produced by the importer oracle. -/
structure Transformer where
  name : Str
  enabled : Bool
  doc : Str
deriving DecidableEq

/-- Possible outcomes of `Importer().import_class_or_module(name,
instantiate_with_args=args)` (external to the sources): an instance, `None`,
or a raised `DataError` with a message. -/
inductive ImportOutcome where
  | ok (t : Transformer)
  | nil
  | raises (msg : Str)
deriving DecidableEq

/-- An importer oracle: full import name and argument tokens to outcome. -/
abbrev Importer := Str → List Str → ImportOutcome

/-- A recommendation oracle modelling
`RecommendationFinder().find_similar(short_name, candidates)` from
`robotidy.utils` (external to the sources): returns the suggestion suffix
text, empty when there is no close match. -/
abbrev Finder := Str → List Str → Str

/-- The module path prepended to catalog names, `'robotidy.transformers.'`. -/
def catalogRoot : Str := "robotidy.transformers.".toList

/-- Models `name.split('.')[-1]`: the part after the last dot. -/
def lastComponent : Str → Str
  | [] => []
  | c :: rest =>
    if c = '.' then lastComponent rest
    else if rest.contains '.' then lastComponent rest
    else c :: rest

/-- The message of the `ImportTransformerError` raised by
`import_transformer` on an import failure that is not an instance-creation
failure, with the recommendation suffix appended. -/
def importFailureMsg (shortName similar : Str) : Str :=
  "Importing transformer \x27".toList ++ shortName ++
    "\x27 failed. Verify if correct name or configuration was provided.".toList ++ similar

/-- Embeds `import_transformer` (lines 41-51): delegate to the importer;
on a raised `DataError` whose message contains `'Creating instance failed'`
re-raise it verbatim, otherwise raise `ImportTransformerError` naming the
short name and appending `find_similar(short_name, TRANSFORMERS)`. -/
def import_transformer (imp : Importer) (fnd : Finder) (name : Str) (args : List Str) :
    Except PyErr (Option Transformer) :=
  match imp name args with
  | .ok t => .ok (some t)
  | .nil => .ok none
  | .raises msg =>
    if occursIn ("Creating instance failed".toList) msg then
      .error (.dataError msg)
    else
      .error (.importTransformerError
        (importFailureMsg (lastComponent name) (fnd (lastComponent name) TRANSFORMERS)))

/-- Line 66: catalog names get the module path prepended, anything else is
used as-is (an arbitrary external reference). -/
def resolveImportName (name : Str) : Str :=
  if TRANSFORMERS.contains name then catalogRoot ++ name else name

/-- Line 65: the merged dict converted back to a token list in the format
`key=value`, in dict (insertion) order. -/
def dictToTokens (d : List (Str × Str)) : List Str :=
  d.map (fun kv => kv.1 ++ '=' :: kv.2)

/-- The processing of one `(name, args)` entry of the explicit branch of
`load_transformers` (lines 58-67): merge `chain(args, config.get(name, ()))`
into a dict, render it back to tokens, and import. -/
def entryOutcome (imp : Importer) (fnd : Finder) (config : List (Str × List Str))
    (name : Str) (args : List Str) : Except PyErr (Option Transformer) := do
  let merged ← mergeTokens (args ++ configGet config name) []
  import_transformer imp fnd (resolveImportName name) (dictToTokens merged)

/-- The explicit-selection loop of `load_transformers` (lines 57-70):
entries are processed in user order; a raised error propagates; an import
returning `None` makes the whole call return an empty list (`some` carries
the accumulated list, `none` the early `return []`). -/
def loadExplicit (imp : Importer) (fnd : Finder) (config : List (Str × List Str)) :
    List (Str × List Str) → Except PyErr (Option (List Transformer))
  | [] => .ok (some [])
  | pr :: rest => do
    let imported ← entryOutcome imp fnd config pr.1 pr.2
    match imported with
    | none => .ok none
    | some t => do
      let restL ← loadExplicit imp fnd config rest
      .ok (restL.map (fun l => t :: l))

/-- The processing of one catalog name in the implicit branch of
`load_transformers` (line 73): the raw `config.get(name, ())` tokens are
passed to the importer unmerged. -/
def implicitOutcome (imp : Importer) (fnd : Finder) (config : List (Str × List Str))
    (name : Str) : Except PyErr (Option Transformer) :=
  import_transformer imp fnd (catalogRoot ++ name) (configGet config name)

/-- The default-catalog loop of `load_transformers` (lines 71-77): iterate
the catalog in order; a raised error propagates; a `None` import makes the
whole call return `[]`; a loaded transformer is kept only when
`allow_disabled or getattr(cls, 'ENABLED', True)`. -/
def loadImplicit (imp : Importer) (fnd : Finder) (config : List (Str × List Str))
    (allowDisabled : Bool) : List Str → Except PyErr (Option (List Transformer))
  | [] => .ok (some [])
  | name :: rest => do
    let imported ← implicitOutcome imp fnd config name
    match imported with
    | none => .ok none
    | some t => do
      let restL ← loadImplicit imp fnd config allowDisabled rest
      .ok (restL.map (fun l => if allowDisabled || t.enabled then t :: l else l))

/-- Embeds `load_transformers(allowed_transformers, config, allow_disabled)`
(lines 54-78).  The early `return []` signal is collapsed to an actual
empty list; raised errors stay `Except.error`. -/
def load_transformers (imp : Importer) (fnd : Finder)
    (allowed : List (Str × List Str)) (config : List (Str × List Str))
    (allowDisabled : Bool) : Except PyErr (List Transformer) :=
  if allowed.isEmpty then
    (loadImplicit imp fnd config allowDisabled TRANSFORMERS).map (fun o => o.getD [])
  else
    (loadExplicit imp fnd config allowed).map (fun o => o.getD [])

/-- Models Python `key.replace('--', '')` from `read_pyproject_config` /
`read_robotidy_config`: delete non-overlapping occurrences of two
consecutive dashes, left to right. -/
def removeDoubleDash : Str → Str
  | [] => []
  | [c] => [c]
  | c1 :: c2 :: rest =>
    if c1 = '-' ∧ c2 = '-' then removeDoubleDash rest
    else c1 :: removeDoubleDash (c2 :: rest)

/-- Models `key.replace('-', '_')`: every remaining dash becomes an
underscore. -/
def dashToUnderscore (s : Str) : Str :=
  s.map (fun c => if c = '-' then '_' else c)

/-- The key transformation of the dict comprehension in
`read_pyproject_config` / `read_robotidy_config` (cli.py lines 146 and 151):
`k.replace('--', '').replace('-', '_')`. -/
def normalizeKey (k : Str) : Str :=
  dashToUnderscore (removeDoubleDash k)

/-- Whether the string holds no two consecutive dashes. -/
def noDoubleDash : Str → Bool
  | [] => true
  | [_] => true
  | c1 :: c2 :: rest => !(c1 == '-' && c2 == '-') && noDoubleDash (c2 :: rest)

/-- The dict comprehension of `read_pyproject_config` /
`read_robotidy_config` applied to a loaded mapping: every key normalized,
with Python-dict collision semantics (later entry wins, first position
kept). -/
def normalizeConfig {α : Type} (m : List (Str × α)) : List (Str × α) :=
  m.foldl (fun d p => dictInsert d (normalizeKey p.1) p.2) []

/-- The dict `transformer_by_names` built in `print_description`
(cli.py line 179), keyed by `__class__.__name__` in list order. -/
def transformerByNames (ts : List Transformer) : List (Str × Transformer) :=
  ts.foldl (fun d t => dictInsert d t.name t) []

/-- The message printed by `print_description` for an unknown name
(cli.py line 190), with the recommendation suffix appended. -/
def unknownTransformerMsg (name similar : Str) : Str :=
  "Transformer with the name \x27".toList ++ name ++
    "\x27 does not exist.".toList ++ similar

/-- Embeds `print_description` (cli.py lines 177-192): the echoed lines and
the return code.  `rst` is the `remove_rst_formatting` oracle (external to
the sources), `ts` the result of `load_transformers(None, {}, True)`. -/
def print_description (rst : Str → Str) (fnd : Finder) (ts : List Transformer)
    (name : Str) : List Str × Nat :=
  let byNames := transformerByNames ts
  if name = "all".toList then
    (byNames.foldr
      (fun p acc => ("Transformer ".toList ++ p.1 ++ ":".toList) :: rst p.2.doc :: acc) [], 0)
  else
    match dictLookup byNames name with
    | some t => ([("Transformer ".toList ++ name ++ ":".toList), rst t.doc], 0)
    | none => ([unknownTransformerMsg name (fnd name (byNames.map Prod.fst))], 1)

/-- Which early branch of the `cli` function body handled the invocation. -/
inductive CliAction where
  | deprecatedListMsg
  | deprecatedDescMsg
  | listTransformers
  | describe
  | usageHint
deriving DecidableEq

/-- Result of the dispatch at the top of `cli` (cli.py lines 362-376):
either `ctx.exit(code)` from one of the early branches, or fall-through to
transformer loading and file processing. -/
inductive CliResult where
  | exit (code : Nat) (action : CliAction)
  | runFiles
deriving DecidableEq

/-- Embeds the dispatch at the top of `cli` (cli.py lines 362-376), in
source order: deprecated `--list-transformers` (truthiness of a flag),
deprecated `--describe-transformer` (truthiness of an optional string),
`--list`, `--desc` (exiting with the `print_description` return code), and
the empty-source-path usage hint; otherwise file processing follows. -/
def cli (rst : Str → Str) (fnd : Finder) (ts : List Transformer)
    (listTransformersFlag : Bool) (describeTransformerOpt : Option Str)
    (listFlag : Bool) (desc : Option Str) (src : List Str) : CliResult :=
  if listTransformersFlag then .exit 0 .deprecatedListMsg
  else if !(describeTransformerOpt.getD []).isEmpty then .exit 0 .deprecatedDescMsg
  else if listFlag then .exit 0 .listTransformers
  else
    match desc with
    | some name => .exit (print_description rst fnd ts name).2 .describe
    | none => if src.isEmpty then .exit 0 .usageHint else .runFiles

/-! ## Lemmas about the parameter dict and merge loop -/

theorem dictLookup_dictInsert {α : Type} (d : List (Str × α)) (k k' : Str) (v : α) :
    dictLookup (dictInsert d k v) k' = if k = k' then some v else dictLookup d k' := by
  induction d with
  | nil => simp [dictInsert, dictLookup]
  | cons p rest ih =>
    simp only [dictInsert]
    by_cases hp : p.1 = k
    · rw [if_pos hp]
      by_cases hk : k = k'
      · simp [dictLookup, hk]
      · have hpk' : ¬ p.1 = k' := by rw [hp]; exact hk
        simp [dictLookup, hk, hpk']
    · rw [if_neg hp]
      by_cases hk : k = k'
      · subst hk
        simp [dictLookup, hp, ih]
      · by_cases hpk' : p.1 = k'
        · simp [dictLookup, hpk', hk]
        · simp [dictLookup, hpk', hk, ih]

theorem mergeTokens_lookup (tokens : List Str) :
    ∀ (d d' : List (Str × Str)), mergeTokens tokens d = .ok d' →
      ∀ k, dictLookup d' k = optOr (lastValue tokens k) (dictLookup d k) := by
  induction tokens with
  | nil =>
    intro d d' h k
    simp only [mergeTokens] at h
    cases h
    simp [lastValue, optOr]
  | cons tok rest ih =>
    intro d d' h k
    cases hsp : splitFirstEq tok with
    | none => simp [mergeTokens, hsp] at h
    | some pv =>
      obtain ⟨p, v⟩ := pv
      simp only [mergeTokens, hsp] at h
      have hrec := ih (dictInsert d p v) d' h k
      rw [hrec, dictLookup_dictInsert]
      simp only [lastValue, hsp]
      cases hlv : lastValue rest k with
      | some w => simp [optOr]
      | none => by_cases hpk : p = k <;> simp [optOr, hpk]

theorem lastValue_append (xs ys : List Str) (k : Str) :
    lastValue (xs ++ ys) k = optOr (lastValue ys k) (lastValue xs k) := by
  induction xs with
  | nil =>
    simp only [List.nil_append, lastValue]
    cases lastValue ys k <;> simp [optOr]
  | cons tok xs ih =>
    rw [List.cons_append]
    cases hsp : splitFirstEq tok with
    | none =>
      simp only [lastValue, hsp]
      exact ih
    | some pv =>
      obtain ⟨p, v⟩ := pv
      simp only [lastValue, hsp, ih]
      cases hy : lastValue ys k <;> cases hx : lastValue xs k <;>
        by_cases hpk : p = k <;> simp [optOr, hy, hx, hpk]

/-! ## Claim C1 -/

/-- Claim C1 (counterexample): with transformer `SplitTooLongLine` selected
with inline parameter `line_length=140` and configured via a configure
directive with `line_length=120`, the merged ParameterSet maps
`line_length` to `"120"` — the configure directive wins over the inline
parameter, contrary to the claimed precedence.  The second conjunct shows
the whole loader passing `line_length=120` to the transformer's
construction (the importer oracle records the argument tokens it
receives in the `doc` field). -/
theorem c1_counterexample :
    mergeTokens (["line_length=140".toList] ++
        configGet [("SplitTooLongLine".toList, ["line_length=120".toList])]
          ("SplitTooLongLine".toList)) []
      = .ok [("line_length".toList, "120".toList)] ∧
    load_transformers
        (fun nm as => ImportOutcome.ok ⟨nm, true, as.foldl (· ++ ·) []⟩)
        (fun _ _ => [])
        [("SplitTooLongLine".toList, ["line_length=140".toList])]
        [("SplitTooLongLine".toList, ["line_length=120".toList])] false
      = .ok [⟨"robotidy.transformers.SplitTooLongLine".toList, true,
              "line_length=120".toList⟩] :=
  ⟨rfl, rfl⟩

/-- Claim C1 (amended): the merged ParameterSet resolves duplicate keys by
last-applied-wins keyed by parameter name; since the configure-directive
tokens are chained after the inline parameters, a key present in both
resolves in favour of the configure directive (its last occurrence), not
the inline parameter. -/
theorem c1_amended (args cfg : List Str) (d : List (Str × Str)) (k v : Str)
    (h : mergeTokens (args ++ cfg) [] = .ok d) (hv : lastValue cfg k = some v) :
    dictLookup d k = some v := by
  have hlook := mergeTokens_lookup (args ++ cfg) [] d h k
  rw [lastValue_append, hv] at hlook
  simpa [optOr] using hlook

theorem c1_amended_witness :
    dictLookup [("line_length".toList, "120".toList)] ("line_length".toList)
      = some ("120".toList) :=
  c1_amended ["line_length=140".toList] ["line_length=120".toList]
    [("line_length".toList, "120".toList)] ("line_length".toList) ("120".toList) rfl rfl

/-! ## Claim C2 -/

/-- Claim C2 (counterexample): the raw token `linelength80` (no `=`) owned
by transformer `SplitTooLongLine` makes the load fail with the generic
`ValueError` of Python tuple unpacking, whose message does not contain the
owning transformer's name (and no ConfigurationError naming it exists in
the code). -/
theorem c2_counterexample :
    load_transformers (fun _ _ => ImportOutcome.nil) (fun _ _ => [])
        [("SplitTooLongLine".toList, ["linelength80".toList])] [] false
      = .error (.valueError unpackMsg) ∧
    occursIn ("SplitTooLongLine".toList) unpackMsg = false :=
  ⟨rfl, rfl⟩

/-- Claim C2 (amended): for every raw parameter token with no `=`
character, parameter merging fails by raising the `ValueError` of Python
tuple unpacking, whose fixed message does not name any transformer of the
catalog. -/
theorem c2_amended (tokens : List Str) (d : List (Str × Str))
    (h : ∃ tok ∈ tokens, splitFirstEq tok = none) :
    mergeTokens tokens d = .error (.valueError unpackMsg) ∧
    ∀ n ∈ TRANSFORMERS, occursIn n unpackMsg = false := by
  have key : ∀ (ts : List Str) (d0 : List (Str × Str)),
      (∃ tok ∈ ts, splitFirstEq tok = none) →
      mergeTokens ts d0 = .error (.valueError unpackMsg) := by
    intro ts
    induction ts with
    | nil => intro d0 h0; exact absurd h0 (by simp)
    | cons tok rest ih =>
      intro d0 h0
      cases hsp : splitFirstEq tok with
      | none => simp [mergeTokens, hsp]
      | some pv =>
        obtain ⟨p, v⟩ := pv
        obtain ⟨t, ht, hts⟩ := h0
        rcases List.mem_cons.mp ht with rfl | htr
        · rw [hsp] at hts; cases hts
        · simp only [mergeTokens, hsp]
          exact ih (dictInsert d0 p v) ⟨t, htr, hts⟩
  exact ⟨key tokens d h, by decide⟩

theorem c2_amended_witness :
    mergeTokens ["linelength80".toList] [] = .error (.valueError unpackMsg) :=
  (c2_amended ["linelength80".toList] [] ⟨"linelength80".toList, by simp, rfl⟩).1

/-! ## Claim C6 -/

theorem splitFirstEq_append (p v : Str) (hp : ∀ c ∈ p, c ≠ '=') :
    splitFirstEq (p ++ '=' :: v) = some (p, v) := by
  induction p with
  | nil => simp [splitFirstEq]
  | cons c p ih =>
    have hc : c ≠ '=' := hp c (by simp)
    have hrest : ∀ x ∈ p, x ≠ '=' := fun x hx => hp x (by simp [hx])
    simp [splitFirstEq, hc, ih hrest]

/-- Claim C6 (confirmed): a raw token `param=value` is split on the first
`=` only, so when `param` holds no `=`, the merged ParameterSet maps
`param` to the entire remainder after the first `=`, which may itself
contain further `=` characters. -/
theorem c6_split_on_first_eq (p v : Str) (hp : ∀ c ∈ p, c ≠ '=') :
    splitFirstEq (p ++ '=' :: v) = some (p, v) ∧
    mergeTokens [p ++ '=' :: v] [] = .ok [(p, v)] ∧
    dictLookup [(p, v)] p = some v := by
  have hs := splitFirstEq_append p v hp
  refine ⟨hs, ?_, by simp [dictLookup]⟩
  simp [mergeTokens, hs, dictInsert]

theorem c6_witness :
    mergeTokens ["line_length=a=b=c".toList] []
      = .ok [("line_length".toList, "a=b=c".toList)] :=
  (c6_split_on_first_eq ("line_length".toList) ("a=b=c".toList) (by decide)).2.1

/-! ## Claim C3 -/

/-- Claim C3 (confirmed): when the importer raises a `DataError`,
`import_transformer` either re-raises it verbatim (message containing
`Creating instance failed`, i.e. the name was found but construction
rejected the parameters) or raises an `ImportTransformerError`
(unknown-name/resolution failure); an instantiation failure is never
reinterpreted as an unknown-name error. -/
theorem c3_errors_not_conflated (imp : Importer) (fnd : Finder) (name : Str)
    (args : List Str) (msg : Str) (h : imp name args = .raises msg) :
    import_transformer imp fnd name args =
      if occursIn ("Creating instance failed".toList) msg then
        .error (.dataError msg)
      else
        .error (.importTransformerError
          (importFailureMsg (lastComponent name) (fnd (lastComponent name) TRANSFORMERS))) := by
  simp only [import_transformer, h]

theorem c3_witness :
    import_transformer (fun _ _ => ImportOutcome.raises ("boom".toList)) (fun _ _ => [])
        ("robotidy.transformers.Foo".toList) []
      = .error (.importTransformerError (importFailureMsg ("Foo".toList) [])) :=
  c3_errors_not_conflated (fun _ _ => ImportOutcome.raises ("boom".toList)) (fun _ _ => [])
    ("robotidy.transformers.Foo".toList) [] ("boom".toList) rfl

/-! ## Claim C4 -/

theorem exceptBind_ok {ε α β : Type} (a : α) (f : α → Except ε β) :
    (Except.ok a >>= f : Except ε β) = f a := rfl

theorem exceptBind_error {ε α β : Type} (e : ε) (f : α → Except ε β) :
    (Except.error e >>= f : Except ε β) = Except.error e := rfl

theorem exceptMap_ok {ε α β : Type} (g : α → β) (a : α) :
    (Except.ok a : Except ε α).map g = .ok (g a) := rfl

theorem exceptMap_error {ε α β : Type} (g : α → β) (e : ε) :
    (Except.error e : Except ε α).map g = .error e := rfl

/-- An explicit entry fails: processing it never yields a transformer
(the merge raised, the import raised, or the import returned `None`). -/
def entryFailed (imp : Importer) (fnd : Finder) (config : List (Str × List Str))
    (pr : Str × List Str) : Prop :=
  ∀ t : Transformer, entryOutcome imp fnd config pr.1 pr.2 ≠ .ok (some t)

/-- A catalog name fails in the implicit branch. -/
def implicitFailed (imp : Importer) (fnd : Finder) (config : List (Str × List Str))
    (n : Str) : Prop :=
  ∀ t : Transformer, implicitOutcome imp fnd config n ≠ .ok (some t)

/-- The list a caller of `load_transformers` can actually receive: the
returned list on a normal return, nothing (collapsed to `[]`) when an
exception propagates. -/
def returnedList (r : Except PyErr (List Transformer)) : List Transformer :=
  match r with
  | .ok l => l
  | .error _ => []

theorem loadExplicit_fail (imp : Importer) (fnd : Finder) (config : List (Str × List Str)) :
    ∀ list : List (Str × List Str), (∃ pr ∈ list, entryFailed imp fnd config pr) →
      loadExplicit imp fnd config list = .ok none ∨
        ∃ e, loadExplicit imp fnd config list = .error e := by
  intro list
  induction list with
  | nil => intro h; exact absurd h (by simp)
  | cons pr rest ih =>
    intro h
    cases ho : entryOutcome imp fnd config pr.1 pr.2 with
    | error e => right; exact ⟨e, by simp [loadExplicit, ho, exceptBind_error]⟩
    | ok o =>
      cases o with
      | none => left; simp [loadExplicit, ho, exceptBind_ok]
      | some t =>
        obtain ⟨pr0, hpr0, hf⟩ := h
        rcases List.mem_cons.mp hpr0 with rfl | hmem
        · exact absurd ho (hf t)
        · rcases ih ⟨pr0, hmem, hf⟩ with hrec | ⟨e, hrec⟩
          · left; simp [loadExplicit, ho, hrec, exceptBind_ok]
          · right; exact ⟨e, by simp [loadExplicit, ho, hrec, exceptBind_ok, exceptBind_error]⟩

theorem loadImplicit_fail (imp : Importer) (fnd : Finder) (config : List (Str × List Str))
    (ad : Bool) :
    ∀ names : List Str, (∃ n ∈ names, implicitFailed imp fnd config n) →
      loadImplicit imp fnd config ad names = .ok none ∨
        ∃ e, loadImplicit imp fnd config ad names = .error e := by
  intro names
  induction names with
  | nil => intro h; exact absurd h (by simp)
  | cons n rest ih =>
    intro h
    cases ho : implicitOutcome imp fnd config n with
    | error e => right; exact ⟨e, by simp [loadImplicit, ho, exceptBind_error]⟩
    | ok o =>
      cases o with
      | none => left; simp [loadImplicit, ho, exceptBind_ok]
      | some t =>
        obtain ⟨n0, hn0, hf⟩ := h
        rcases List.mem_cons.mp hn0 with rfl | hmem
        · exact absurd ho (hf t)
        · rcases ih ⟨n0, hmem, hf⟩ with hrec | ⟨e, hrec⟩
          · left; simp [loadImplicit, ho, hrec, exceptBind_ok]
          · right; exact ⟨e, by simp [loadImplicit, ho, hrec, exceptBind_ok, exceptBind_error]⟩

/-- Claim C4 (counterexample): with one requested transformer whose import
raises, `load_transformers` does not return an empty list — the raised
`ImportTransformerError` propagates and the caller receives no list at
all. -/
theorem c4_counterexample :
    load_transformers (fun _ _ => ImportOutcome.raises ("boom".toList)) (fun _ _ => [])
        [("Foo".toList, [])] [] false
      = .error (.importTransformerError (importFailureMsg ("Foo".toList) [])) ∧
    (Except.ok ([] : List Transformer) ≠
      load_transformers (fun _ _ => ImportOutcome.raises ("boom".toList)) (fun _ _ => [])
        [("Foo".toList, [])] [] false) :=
  ⟨rfl, fun h => Except.noConfusion h⟩

/-- Claim C4 (amended): batch loading is fail-fast — if processing any
single transformer of the requested set (or of the default catalog when no
selection is given) fails, the whole load aborts: either the raised error
propagates, so the caller receives no list, or (`None` import) an empty
list is returned; the list a caller can ever receive is empty, never a
partially-loaded one. -/
theorem c4_amended (imp : Importer) (fnd : Finder)
    (allowed config : List (Str × List Str)) (ad : Bool)
    (h : (∃ pr ∈ allowed, entryFailed imp fnd config pr) ∨
         (allowed = [] ∧ ∃ n ∈ TRANSFORMERS, implicitFailed imp fnd config n)) :
    returnedList (load_transformers imp fnd allowed config ad) = [] := by
  rcases h with ⟨pr, hm, hf⟩ | ⟨rfl, hex⟩
  · cases allowed with
    | nil => simp at hm
    | cons a rest =>
      rcases loadExplicit_fail imp fnd config (a :: rest) ⟨pr, hm, hf⟩ with h1 | ⟨e, h1⟩
      · simp [load_transformers, returnedList, h1, exceptMap_ok]
      · simp [load_transformers, returnedList, h1, exceptMap_error]
  · rcases loadImplicit_fail imp fnd config ad TRANSFORMERS hex with h1 | ⟨e, h1⟩
    · simp [load_transformers, returnedList, h1, exceptMap_ok]
    · simp [load_transformers, returnedList, h1, exceptMap_error]

theorem c4_amended_witness :
    returnedList (load_transformers (fun _ _ => ImportOutcome.nil) (fun _ _ => [])
      [("Foo".toList, [])] [] false) = [] :=
  c4_amended (fun _ _ => ImportOutcome.nil) (fun _ _ => []) [("Foo".toList, [])] [] false
    (Or.inl ⟨("Foo".toList, []), by simp,
      fun t h => Option.noConfusion (Except.ok.inj h)⟩)

/-! ## Claims C5 and C7 -/

theorem loadExplicit_ok (imp : Importer) (fnd : Finder) (config : List (Str × List Str))
    (g : Str × List Str → Transformer) :
    ∀ list : List (Str × List Str),
      (∀ pr ∈ list, entryOutcome imp fnd config pr.1 pr.2 = .ok (some (g pr))) →
      loadExplicit imp fnd config list = .ok (some (list.map g)) := by
  intro list
  induction list with
  | nil => intro _; rfl
  | cons pr rest ih =>
    intro h
    have h0 := h pr (by simp)
    have hr := ih (fun q hq => h q (by simp [hq]))
    simp [loadExplicit, h0, hr, exceptBind_ok]

theorem loadImplicit_ok (imp : Importer) (fnd : Finder) (config : List (Str × List Str))
    (ad : Bool) (f : Str → Transformer) :
    ∀ names : List Str,
      (∀ n ∈ names, implicitOutcome imp fnd config n = .ok (some (f n))) →
      loadImplicit imp fnd config ad names
        = .ok (some ((names.map f).filter (fun t => ad || t.enabled))) := by
  intro names
  induction names with
  | nil => intro _; rfl
  | cons n rest ih =>
    intro h
    have h0 := h n (by simp)
    have hr := ih (fun m hm => h m (by simp [hm]))
    cases he : ad || (f n).enabled with
    | false =>
      simp [loadImplicit, h0, hr, exceptBind_ok, List.filter_cons, he]
      simpa using he
    | true =>
      simp [loadImplicit, h0, hr, exceptBind_ok, List.filter_cons, he]
      intro ha
      rw [ha] at he
      simpa using he

/-- Claim C5 (confirmed): with no explicit selection, `load_transformers`
iterates the full catalog in declared order and omits exactly the
transformers whose `ENABLED` attribute is `false`, unless `allow_disabled`
is set; with an explicit selection every requested transformer is loaded
with no `ENABLED` check at all, so it is included regardless of the flag. -/
theorem c5_enabled_filtering (imp : Importer) (fnd : Finder)
    (config : List (Str × List Str)) (ad : Bool) (f : Str → Transformer)
    (allowed : List (Str × List Str)) (g : Str × List Str → Transformer)
    (hf : ∀ n ∈ TRANSFORMERS, implicitOutcome imp fnd config n = .ok (some (f n)))
    (hg : ∀ pr ∈ allowed, entryOutcome imp fnd config pr.1 pr.2 = .ok (some (g pr)))
    (hne : allowed ≠ []) :
    load_transformers imp fnd [] config ad
        = .ok ((TRANSFORMERS.map f).filter (fun t => ad || t.enabled)) ∧
    load_transformers imp fnd allowed config ad = .ok (allowed.map g) := by
  constructor
  · have h1 := loadImplicit_ok imp fnd config ad f TRANSFORMERS hf
    simp [load_transformers, h1, exceptMap_ok]
  · have h1 := loadExplicit_ok imp fnd config g allowed hg
    cases allowed with
    | nil => exact absurd rfl hne
    | cons a rest => simp [load_transformers, h1, exceptMap_ok]

/-- An importer oracle producing a disabled transformer named by the
full module path, used to witness the enabled-flag behaviour. -/
def impDisabled : Importer := fun nm _ => .ok ⟨nm, false, []⟩

/-- An importer oracle producing an enabled transformer named by the
full module path. -/
def impEnabled : Importer := fun nm _ => .ok ⟨nm, true, []⟩

/-- The empty recommendation oracle. -/
def fndEmpty : Finder := fun _ _ => []

theorem c5_witness :
    load_transformers impDisabled fndEmpty [] [] false
        = .ok (((TRANSFORMERS.map (fun n => (⟨catalogRoot ++ n, false, []⟩ : Transformer))).filter
            (fun t => false || t.enabled))) ∧
    load_transformers impDisabled fndEmpty [("Foo".toList, [])] [] false
        = .ok ([("Foo".toList, ([] : List Str))].map
            (fun pr => (⟨resolveImportName pr.1, false, []⟩ : Transformer))) :=
  c5_enabled_filtering impDisabled fndEmpty [] false
    (fun n => ⟨catalogRoot ++ n, false, []⟩)
    [("Foo".toList, [])] (fun pr => ⟨resolveImportName pr.1, false, []⟩)
    (fun _ _ => rfl)
    (fun pr hpr => by
      rcases List.mem_singleton.mp hpr with rfl
      rfl)
    (by simp)

/-- Claim C7 (confirmed): the loaded list is deterministic and never
interleaved — with an explicit selection it is exactly the user-given
selection order, and with no selection it is exactly the catalog's
declared `TRANSFORMERS` order restricted to enabled entries. -/
theorem c7_deterministic_order (imp : Importer) (fnd : Finder)
    (config : List (Str × List Str)) (f : Str → Transformer)
    (allowed : List (Str × List Str)) (g : Str × List Str → Transformer)
    (hf : ∀ n ∈ TRANSFORMERS, implicitOutcome imp fnd config n = .ok (some (f n)))
    (hg : ∀ pr ∈ allowed, entryOutcome imp fnd config pr.1 pr.2 = .ok (some (g pr)))
    (hne : allowed ≠ []) :
    load_transformers imp fnd allowed config false = .ok (allowed.map g) ∧
    load_transformers imp fnd [] config false
        = .ok ((TRANSFORMERS.map f).filter (fun t => t.enabled)) := by
  constructor
  · have h1 := loadExplicit_ok imp fnd config g allowed hg
    cases allowed with
    | nil => exact absurd rfl hne
    | cons a rest => simp [load_transformers, h1, exceptMap_ok]
  · have h1 := loadImplicit_ok imp fnd config false f TRANSFORMERS hf
    simp only [Bool.false_or] at h1
    simp [load_transformers, h1, exceptMap_ok]

theorem c7_witness :
    load_transformers impEnabled fndEmpty
        [("SmartSortKeywords".toList, []), ("NormalizeSeparators".toList, [])] [] false
      = .ok ([("SmartSortKeywords".toList, ([] : List Str)),
              ("NormalizeSeparators".toList, ([] : List Str))].map
          (fun pr => (⟨resolveImportName pr.1, true, []⟩ : Transformer))) :=
  (c7_deterministic_order impEnabled fndEmpty []
    (fun n => ⟨catalogRoot ++ n, true, []⟩)
    [("SmartSortKeywords".toList, []), ("NormalizeSeparators".toList, [])]
    (fun pr => ⟨resolveImportName pr.1, true, []⟩)
    (fun _ _ => rfl)
    (fun pr hpr => by
      rcases List.mem_cons.mp hpr with rfl | hpr
      · rfl
      · rcases List.mem_singleton.mp hpr with rfl
        rfl)
    (by simp)).1

/-! ## Claim C8 -/

theorem removeDoubleDash_of_noDoubleDash :
    ∀ s : Str, noDoubleDash s = true → removeDoubleDash s = s := by
  intro s
  induction s with
  | nil => intro _; rfl
  | cons c rest ih =>
    intro h
    cases rest with
    | nil => rfl
    | cons c2 rest2 =>
      simp only [noDoubleDash, Bool.and_eq_true] at h
      obtain ⟨h1, h2⟩ := h
      have hcc : ¬ (c = '-' ∧ c2 = '-') := by
        rintro ⟨rfl, rfl⟩
        simp at h1
      simp only [removeDoubleDash, if_neg hcc]
      rw [ih h2]

theorem removeDoubleDash_dashFree :
    ∀ s : Str, (∀ c ∈ s, c ≠ '-') → removeDoubleDash s = s := by
  intro s
  induction s with
  | nil => intro _; rfl
  | cons c rest ih =>
    intro h
    cases rest with
    | nil => rfl
    | cons c2 rest2 =>
      have hc : c ≠ '-' := h c (by simp)
      have hcc : ¬ (c = '-' ∧ c2 = '-') := fun hp => hc hp.1
      simp only [removeDoubleDash, if_neg hcc]
      rw [ih (fun x hx => h x (by simp [hx]))]

theorem dashToUnderscore_dashFree (s : Str) : ∀ c ∈ dashToUnderscore s, c ≠ '-' := by
  intro c hc
  simp only [dashToUnderscore, List.mem_map] at hc
  obtain ⟨a, _, rfl⟩ := hc
  by_cases ha : a = '-' <;> simp [ha]

theorem dashToUnderscore_idem : ∀ s : Str, dashToUnderscore (dashToUnderscore s) = dashToUnderscore s := by
  intro s
  induction s with
  | nil => rfl
  | cons c rest ih =>
    simp only [dashToUnderscore, List.map_cons] at ih ⊢
    rw [ih]
    by_cases h : c = '-' <;> simp [h]

/-- Claim C8 (counterexample): key normalization is not a plain
dash-to-underscore replacement — the code deletes every `--` occurrence
first.  The key `--check` normalizes to `check`, while the same key written
with underscores, `__check`, normalizes to itself, so the two give
different configuration entries. -/
theorem c8_counterexample :
    normalizeKey ("--check".toList) = "check".toList ∧
    normalizeKey ("--check".toList) ≠ normalizeKey ("__check".toList) ∧
    normalizeConfig [("--check".toList, "1".toList)]
      ≠ normalizeConfig [("__check".toList, "1".toList)] :=
  ⟨rfl, by decide, by decide⟩

/-- Claim C8 (amended): config-file keys are normalized by first deleting
every `--` occurrence and then replacing each remaining dash with an
underscore; for keys without two consecutive dashes this is exactly
dash-to-underscore replacement, and such a key containing `-` yields the
same configuration entry as the same key written with `_`. -/
theorem c8_amended (k v : Str) (h : noDoubleDash k = true) :
    normalizeKey k = dashToUnderscore k ∧
    normalizeKey k = normalizeKey (dashToUnderscore k) ∧
    normalizeConfig [(k, v)] = normalizeConfig [(dashToUnderscore k, v)] := by
  have h1 : normalizeKey k = dashToUnderscore k := by
    unfold normalizeKey
    rw [removeDoubleDash_of_noDoubleDash k h]
  have h2 : normalizeKey (dashToUnderscore k) = dashToUnderscore k := by
    unfold normalizeKey
    rw [removeDoubleDash_dashFree (dashToUnderscore k) (dashToUnderscore_dashFree k),
        dashToUnderscore_idem]
  refine ⟨h1, by rw [h1, h2], ?_⟩
  simp [normalizeConfig, h1, h2]

theorem c8_amended_witness :
    normalizeKey ("line-length".toList) = dashToUnderscore ("line-length".toList) ∧
    normalizeKey ("line-length".toList) = normalizeKey (dashToUnderscore ("line-length".toList)) ∧
    normalizeConfig [("line-length".toList, "80".toList)]
      = normalizeConfig [(dashToUnderscore ("line-length".toList), "80".toList)] :=
  c8_amended ("line-length".toList) ("80".toList) (by decide)

/-! ## Claim C9 -/

/-- Claim C9 (confirmed): `print_description` returns 0 when the name is
`all` or matches a loaded transformer, and 1 when the name is unknown, in
which case the printed message is the unknown-name text suffixed with the
Recommendation Engine's suggestion text (whatever `find_similar` returns,
empty when there is no close match); the CLI `--desc` branch exits with
that return code. -/
theorem c9_describe (rst : Str → Str) (fnd : Finder) (ts : List Transformer)
    (name : Str) (src : List Str) :
    ((name = "all".toList ∨ (∃ t, dictLookup (transformerByNames ts) name = some t)) →
      (print_description rst fnd ts name).2 = 0 ∧
      cli rst fnd ts false none false (some name) src = .exit 0 .describe) ∧
    ((name ≠ "all".toList ∧ dictLookup (transformerByNames ts) name = none) →
      (print_description rst fnd ts name).2 = 1 ∧
      (print_description rst fnd ts name).1
        = [unknownTransformerMsg name (fnd name ((transformerByNames ts).map Prod.fst))] ∧
      cli rst fnd ts false none false (some name) src = .exit 1 .describe) := by
  constructor
  · rintro (hall | ⟨t, ht⟩)
    · exact ⟨by simp [print_description, hall], by simp [cli, print_description, hall]⟩
    · by_cases hall : name = "all".toList
      · exact ⟨by simp [print_description, hall], by simp [cli, print_description, hall]⟩
      · have hall' : ¬ name = ['a', 'l', 'l'] := hall
        exact ⟨by simp [print_description, hall', ht],
          by simp [cli, print_description, hall', ht]⟩
  · rintro ⟨hna, hnf⟩
    have hna' : ¬ name = ['a', 'l', 'l'] := hna
    refine ⟨?_, ?_, ?_⟩ <;> simp [cli, print_description, hna', hnf]

theorem c9_witness :
    (print_description (fun s => s) fndEmpty [⟨"Foo".toList, true, []⟩] ("Bar".toList)).2 = 1 :=
  ((c9_describe (fun s => s) fndEmpty [⟨"Foo".toList, true, []⟩] ("Bar".toList) []).2
    ⟨by decide, rfl⟩).1

/-! ## Claim C10 -/

/-- Claim C10 (confirmed): with an empty source-path list and none of the
list/describe/deprecated flags, the CLI prints the usage hint and exits
with status 0; the dispatch never reaches transformer loading or file
processing (the outcome is `usageHint`, not `runFiles` and not one of the
branches that consult the transformer list). -/
theorem c10_empty_src_usage_hint (rst : Str → Str) (fnd : Finder) (ts : List Transformer) :
    cli rst fnd ts false none false none [] = .exit 0 .usageHint := rfl

end Robotidy
